/-
Verification of the KitabGhar / MediaFlow document-library application.

This file shallowly embeds the data-access, authorization and persistence
layer of `src/KitabGhar/MediaFlow/app.py` (the primary implementation) and,
where a claim cites it, the older variant `src/MediaFlow/app.py`.

Modelling conventions:
- Python dicts keyed by integer IDs become insertion-ordered association
  lists `List (Nat × α)`; the application only ever inserts fresh keys, so
  key uniqueness is an invariant and not baked into the type.
- `datetime` instants are modelled as `Nat` ticks.  `datetime.isoformat`
  is modelled as an injective textual rendering of the instant (a decimal
  encoding standing in for the ISO-8601 text) and `datetime.fromisoformat`
  as its inverse, which is the contract of the Python library that the
  persistence code relies on.  A field that holds either a datetime or an
  unparseable string (the `_iso_to_dt` fallback) is the inductive `DtVal`.
- `werkzeug.generate_password_hash` / `check_password_hash` are modelled
  by their contract: the hash determines exactly the set of passwords that
  verify, namely the original plaintext (`PHash` keeps the plaintext and
  `check_password_hash` compares; salted-hash collisions are abstracted).
- `save_data` writes a JSON document; we model the document structurally
  as `Snapshot` (stringified integer keys, ISO-string timestamps), and the
  file system state seen by `load_data` as `FileState` (missing file,
  file that fails JSON parsing, or a parsed document).
- File existence checks (`os.path.exists`) take the set of files present
  on disk as a boolean predicate on filenames.
-/
import Mathlib

namespace KitabGhar

/-! ### Decimal text encoding (model of Python `str`/`int` on ints and of
`datetime.isoformat`/`fromisoformat` on instants) -/

def digitChar (d : Nat) : Char := Char.ofNat (48 + d)

def charDigit (c : Char) : Nat := c.toNat - 48

theorem charDigit_digitChar (d : Nat) (h : d < 10) :
    charDigit (digitChar d) = d := by
  interval_cases d <;> decide

theorem isDigit_digitChar (d : Nat) (h : d < 10) :
    (digitChar d).isDigit = true := by
  interval_cases d <;> decide

def natDigitsAux : Nat → List Char → List Char
  | 0, acc => acc
  | n + 1, acc => natDigitsAux ((n + 1) / 10) (digitChar ((n + 1) % 10) :: acc)
decreasing_by exact Nat.div_lt_self (Nat.succ_pos n) (by omega)

def natDigits (n : Nat) : List Char :=
  if n = 0 then [digitChar 0] else natDigitsAux n []

def decodeFrom (a : Nat) (l : List Char) : Nat :=
  l.foldl (fun x c => x * 10 + charDigit c) a

theorem natDigitsAux_eq_append (n : Nat) :
    ∀ acc, natDigitsAux n acc = natDigitsAux n [] ++ acc := by
  induction n using Nat.strong_induction_on with
  | _ n ih =>
    intro acc
    match n with
    | 0 => simp [natDigitsAux]
    | m + 1 =>
      rw [natDigitsAux, natDigitsAux,
        ih ((m + 1) / 10) (Nat.div_lt_self (Nat.succ_pos m) (by omega)),
        ih ((m + 1) / 10) (Nat.div_lt_self (Nat.succ_pos m) (by omega))
          (digitChar ((m + 1) % 10) :: [])]
      simp

theorem decodeFrom_append (a : Nat) (l₁ l₂ : List Char) :
    decodeFrom a (l₁ ++ l₂) = decodeFrom (decodeFrom a l₁) l₂ := by
  simp [decodeFrom, List.foldl_append]

theorem decodeFrom_natDigitsAux (n : Nat) :
    decodeFrom 0 (natDigitsAux n []) = n := by
  induction n using Nat.strong_induction_on with
  | _ n ih =>
    match n with
    | 0 => simp [natDigitsAux, decodeFrom]
    | m + 1 =>
      rw [natDigitsAux,
        natDigitsAux_eq_append ((m + 1) / 10) (digitChar ((m + 1) % 10) :: []),
        decodeFrom_append,
        ih ((m + 1) / 10) (Nat.div_lt_self (Nat.succ_pos m) (by omega))]
      have hm : (m + 1) % 10 < 10 := Nat.mod_lt _ (by omega)
      simp [decodeFrom, charDigit_digitChar _ hm]
      omega

theorem decodeFrom_natDigits (n : Nat) : decodeFrom 0 (natDigits n) = n := by
  by_cases h : n = 0
  · subst h; decide
  · rw [natDigits, if_neg h]; exact decodeFrom_natDigitsAux n

theorem natDigits_all_digit (n : Nat) :
    ∀ c ∈ natDigits n, c.isDigit = true := by
  have aux : ∀ n : Nat, ∀ acc : List Char, (∀ c ∈ acc, c.isDigit = true) →
      ∀ c ∈ natDigitsAux n acc, c.isDigit = true := by
    intro n
    induction n using Nat.strong_induction_on with
    | _ n ih =>
      intro acc hacc c hc
      match n with
      | 0 =>
        rw [natDigitsAux] at hc
        exact hacc c hc
      | m + 1 =>
        rw [natDigitsAux] at hc
        refine ih ((m + 1) / 10) (Nat.div_lt_self (Nat.succ_pos m) (by omega))
          _ ?_ c hc
        intro d hd
        rcases List.mem_cons.mp hd with h | h
        · subst h; exact isDigit_digitChar _ (Nat.mod_lt _ (by omega))
        · exact hacc d h
  intro c hc
  by_cases h : n = 0
  · subst h
    simp only [natDigits, if_pos, List.mem_singleton] at hc
    subst hc; decide
  · rw [natDigits, if_neg h] at hc
    exact aux n [] (by intro c hc; cases hc) c hc

theorem natDigits_ne_nil (n : Nat) : natDigits n ≠ [] := by
  by_cases h : n = 0
  · subst h; decide
  · rw [natDigits, if_neg h]
    match n, h with
    | m + 1, _ =>
      rw [natDigitsAux, natDigitsAux_eq_append]
      simp

/-- Model of `str(n)` for a nonnegative integer, and of
`datetime.isoformat` on an instant given as ticks. -/
def natToText (n : Nat) : String := String.mk (natDigits n)

/-- Model of `int(s)` (returning `none` where Python raises `ValueError`)
and of `datetime.fromisoformat` on the textual rendering of an instant. -/
def textToNat (s : String) : Option Nat :=
  if !s.data.isEmpty && s.data.all Char.isDigit then
    some (decodeFrom 0 s.data)
  else
    none

theorem textToNat_natToText (n : Nat) : textToNat (natToText n) = some n := by
  have hne : (natToText n).data ≠ [] := natDigits_ne_nil n
  have hall : (natToText n).data.all Char.isDigit = true :=
    List.all_eq_true.mpr fun c hc => natDigits_all_digit n c hc
  rw [textToNat, if_pos]
  · exact congrArg some (decodeFrom_natDigits n)
  · rw [hall]
    simp [List.isEmpty_iff, hne]

/-! ### Data model -/

/-- A value that is either a structured datetime (ticks) or a raw string:
`_iso_to_dt` stores the string unchanged when parsing fails, so timestamp
fields can hold either. -/
inductive DtVal where
  | dt (ticks : Nat)
  | txt (s : String)
deriving DecidableEq

/-- Function `_dt_to_iso`: `v.isoformat() if isinstance(v, datetime) else v`. -/
def dt_to_iso : DtVal → String
  | .dt t => natToText t
  | .txt s => s

/-- Function `_iso_to_dt`: `datetime.fromisoformat(s)`, returning the string
unchanged if parsing raises. -/
def iso_to_dt (s : String) : DtVal :=
  match textToNat s with
  | some t => .dt t
  | none => .txt s

/-- Model of a werkzeug password hash: it retains exactly the information
of which plaintexts verify against it, namely the original one. -/
structure PHash where
  plain : String
deriving DecidableEq

/-- Model of `werkzeug.security.generate_password_hash`. -/
def generate_password_hash (password : String) : PHash := ⟨password⟩

/-- Model of `werkzeug.security.check_password_hash`: true iff `password` is the
plaintext the hash was generated from. -/
def check_password_hash (h : PHash) (password : String) : Bool :=
  h.plain == password

/-- A record of `users_db`. -/
structure User where
  id : Nat
  username : String
  email : String
  password_hash : PHash
  role : String
  created_at : DtVal
deriving DecidableEq

/-- A record of `books_db`. -/
structure Book where
  id : Nat
  title : String
  author : String
  category : String
  description : String
  filename : String
  uploaded_by : Nat
  uploaded_at : DtVal
  downloads : Nat
  views : Nat
deriving DecidableEq

/-- The module-level mutable state: `users_db`, `books_db`,
`user_counter`, `book_counter`. -/
structure St where
  users_db : List (Nat × User)
  books_db : List (Nat × Book)
  user_counter : Nat
  book_counter : Nat
deriving DecidableEq

/-- The state at process start: empty tables, both counters at 1. -/
def initialState : St := ⟨[], [], 1, 1⟩

/-! ### User management (`src/KitabGhar/MediaFlow/app.py` lines 133-161) -/

/-- Function `create_user`: assigns `user_counter` as the ID, bumps the counter,
stores the record (hashing the password, stamping `created_at` with the
current time `now`) and returns it.  `save_data` has no in-memory effect
and is modelled separately. -/
def create_user (st : St) (username email password role : String)
    (now : Nat) : St × User :=
  let user_id := st.user_counter
  let user_data : User :=
    ⟨user_id, username, email, generate_password_hash password, role,
      .dt now⟩
  ({ st with
      users_db := st.users_db ++ [(user_id, user_data)],
      user_counter := st.user_counter + 1 },
    user_data)

/-- Function `get_user_by_username`: first record (in table iteration order) whose
username matches, else `None`. -/
def get_user_by_username (st : St) (username : String) : Option User :=
  (st.users_db.map Prod.snd).find? (fun u => u.username == username)

/-- Function `get_user_by_id`: dictionary lookup. -/
def get_user_by_id (st : St) (user_id : Nat) : Option User :=
  st.users_db.lookup user_id

/-- Function `authenticate_user`: look up by username, verify the hash; `None` on a
missing account or a failed check. -/
def authenticate_user (st : St) (username password : String) : Option User :=
  match get_user_by_username st username with
  | some user =>
      if check_password_hash user.password_hash password then some user
      else none
  | none => none

/-! ### Book management (`src/KitabGhar/MediaFlow/app.py` lines 166-202) -/

/-- Function `create_book`: assigns `book_counter` as the ID, bumps the counter,
stores the record with zeroed `downloads` and `views`. -/
def create_book (st : St) (title author category description filename :
    String) (uploaded_by : Nat) (now : Nat) : St × Book :=
  let book_id := st.book_counter
  let book_data : Book :=
    ⟨book_id, title, author, category, description, filename, uploaded_by,
      .dt now, 0, 0⟩
  ({ st with
      books_db := st.books_db ++ [(book_id, book_data)],
      book_counter := st.book_counter + 1 },
    book_data)

/-- Python truthiness of an optional string argument: `None` and the empty
string are falsy. -/
def pyTruthy : Option String → Bool
  | none => false
  | some s => !(s == "")

/-- Test `q in hay` for Python strings: substring containment. -/
def strIn (needle hay : String) : Bool :=
  decide (needle.data <:+: hay.data)

/-- Python `str.lower()`, modelled as per-character lowering. -/
def lower (s : String) : String := String.mk (s.data.map Char.toLower)

/-- The per-book test of the `query` branch of `search_books`:
`q in title.lower() or q in author.lower() or q in description.lower()`
where `q = query.lower()`. -/
def queryHit (book : Book) (q : String) : Bool :=
  strIn q (lower book.title) || strIn q (lower book.author) ||
    strIn q (lower book.description)

/-- The loop body condition of `search_books` for one book. -/
def searchCond (book : Book) (query category : Option String) : Bool :=
  if pyTruthy query then
    queryHit book (lower (query.getD "")) &&
      (!pyTruthy category || book.category == category.getD "")
  else if pyTruthy category then
    book.category == category.getD ""
  else
    true

/-- Function `search_books(query=None, category=None)`: the accumulation loop over
`books_db.values()` appending each book satisfying the branch condition,
i.e. a filter of the table in iteration order. -/
def search_books (st : St) (query category : Option String) : List Book :=
  (st.books_db.map Prod.snd).filter (fun b => searchCond b query category)

/-- Function `get_all_categories` (KitabGhar variant):
`sorted(set(b.get('category') for b in books_db.values() if b.get('category')))`
— the truthiness guard drops empty categories. -/
def get_all_categories (st : St) : List String :=
  ((((st.books_db.map Prod.snd).map Book.category).filter
      (fun c => !(c == ""))).toFinset).sort (· ≤ ·)

/-- Function `get_all_categories` (older `src/MediaFlow/app.py` variant, lines
111-115): every book's category is added to the set, with no emptiness
guard, then sorted. -/
def get_all_categories_mf (st : St) : List String :=
  (((st.books_db.map Prod.snd).map Book.category).toFinset).sort (· ≤ ·)

/-! ### Access control (`src/KitabGhar/MediaFlow/app.py` lines 207-230) -/

/-- Lookup `role_hierarchy.get(r, dflt)` for
`role_hierarchy = {'reader': 1, 'author': 2, 'admin': 3}`. -/
def role_hierarchy_get (r : String) (dflt : Nat) : Nat :=
  if r == "reader" then 1
  else if r == "author" then 2
  else if r == "admin" then 3
  else dflt

/-- Outcome of a `require_role` guard: redirect to the login page (no
session), a denial redirect to home, an uncaught exception (KitabGhar's
`user.get('role')` on a `None` user), or fall-through to the handler. -/
inductive GuardResult where
  | redirectLogin
  | denied
  | crashed
  | allowed
deriving DecidableEq

/-- Guard `require_role(required_role)` applied to a request carrying session
`sess` (the optional `user_id`): login redirect with no session; with a
session, compare `role_hierarchy.get(user.get('role'), 0)` against
`role_hierarchy.get(required_role, 999)` and deny (redirect home with an
error flash) when strictly below, otherwise invoke the handler.  A session
whose user ID is absent from `users_db` makes the KitabGhar variant raise
(`None.get`), modelled as `crashed`. -/
def require_role (st : St) (sess : Option Nat) (required_role : String) :
    GuardResult :=
  match sess with
  | none => .redirectLogin
  | some uid =>
      match get_user_by_id st uid with
      | none => .crashed
      | some user =>
          if role_hierarchy_get user.role 0 <
              role_hierarchy_get required_role 999 then .denied
          else .allowed

/-! ### Registration route (`src/KitabGhar/MediaFlow/app.py` lines
266-288).  Form values are modelled post-`strip()`. -/

/-- Outcome of a POST to `/register`. -/
inductive RegResult where
  | errMissing
  | errMismatch
  | errExists
  | success (user_id : Nat)
deriving DecidableEq

/-- The keys of the `ROLES` dict (`role not in ROLES` tests key
membership). -/
def rolesKeys : List String := ["reader", "author", "admin"]

/-- The POST branch of `register`: require username and password
non-empty, matching confirmation, and an unused username; coerce a role
outside `ROLES` to `'reader'`; then `create_user` and log the new user
in. -/
def register (st : St) (username email password confirm role : String)
    (now : Nat) : St × RegResult :=
  if username == "" || password == "" then (st, .errMissing)
  else if !(password == confirm) then (st, .errMismatch)
  else if (get_user_by_username st username).isSome then (st, .errExists)
  else
    let role' := if role ∈ rolesKeys then role else "reader"
    let res := create_user st username email password role' now
    (res.1, .success res.2.id)

/-! ### Download and read routes (`src/KitabGhar/MediaFlow/app.py` lines
350-386).  `fs` is the set of files present in the upload folder. -/

/-- Outcome of `/download/<id>` or `/read/<id>` past the login guard. -/
inductive ServeResult where
  | notFound404
  | fileMissing
  | served
deriving DecidableEq

/-- Route `download`: 404 on an unknown ID; redirect with an error flash when
the backing file is absent; otherwise bump that book's `downloads` by one
(in-place mutation of the record found under `book_id`) and serve it. -/
def download (st : St) (fs : String → Bool) (book_id : Nat) :
    St × ServeResult :=
  match st.books_db.lookup book_id with
  | none => (st, .notFound404)
  | some book =>
      if !fs book.filename then (st, .fileMissing)
      else
        ({ st with
            books_db := st.books_db.map (fun kv =>
              if kv.1 == book_id then
                (kv.1, { kv.2 with downloads := kv.2.downloads + 1 })
              else kv) },
          .served)

/-- Route `read`: same shape as `download` but bumps `views`. -/
def read (st : St) (fs : String → Bool) (book_id : Nat) :
    St × ServeResult :=
  match st.books_db.lookup book_id with
  | none => (st, .notFound404)
  | some book =>
      if !fs book.filename then (st, .fileMissing)
      else
        ({ st with
            books_db := st.books_db.map (fun kv =>
              if kv.1 == book_id then
                (kv.1, { kv.2 with views := kv.2.views + 1 })
              else kv) },
          .served)

/-! ### Admin deletion routes (`src/KitabGhar/MediaFlow/app.py` lines
399-429), state effect only -/

/-- Route `delete_user` past the admin guard: refuse self-deletion, else remove
the record if present. -/
def delete_user (st : St) (sess_uid user_id : Nat) : St :=
  if user_id == sess_uid then st
  else if (st.users_db.lookup user_id).isSome then
    { st with users_db := st.users_db.filter (fun kv => !(kv.1 == user_id)) }
  else st

/-- Route `delete_book` past the admin guard: remove the record if present (the
backing-file removal has no catalog effect). -/
def delete_book (st : St) (book_id : Nat) : St :=
  if (st.books_db.lookup book_id).isSome then
    { st with books_db := st.books_db.filter (fun kv => !(kv.1 == book_id)) }
  else st

/-! ### Persistence (`src/KitabGhar/MediaFlow/app.py` lines 71-128) -/

/-- A user record as it appears in the JSON document: `created_at`
rendered to text by `_dt_to_iso`, every other field verbatim. -/
structure SerUser where
  id : Nat
  username : String
  email : String
  password_hash : PHash
  role : String
  created_at : String
deriving DecidableEq

/-- A book record as it appears in the JSON document.  `views` is
optional because `load_data` applies `setdefault('views', 0)`: older
snapshots may lack it. -/
structure SerBook where
  id : Nat
  title : String
  author : String
  category : String
  description : String
  filename : String
  uploaded_by : Nat
  uploaded_at : String
  downloads : Nat
  views : Option Nat
deriving DecidableEq

/-- The JSON document written by `save_data`: tables keyed by stringified
IDs plus the two counters (`data.get` tolerates their absence, hence
`Option`). -/
structure Snapshot where
  users_db : List (String × SerUser)
  books_db : List (String × SerBook)
  user_counter : Option Nat
  book_counter : Option Nat
deriving DecidableEq

/-- The `{**v, 'created_at': _dt_to_iso(v.get('created_at'))}` record of
`save_data`. -/
def serUser (u : User) : SerUser :=
  ⟨u.id, u.username, u.email, u.password_hash, u.role, dt_to_iso u.created_at⟩

/-- The `{**v, 'uploaded_at': _dt_to_iso(v.get('uploaded_at'))}` record of
`save_data`. -/
def serBook (b : Book) : SerBook :=
  ⟨b.id, b.title, b.author, b.category, b.description, b.filename,
    b.uploaded_by, dt_to_iso b.uploaded_at, b.downloads, some b.views⟩

/-- Function `save_data`: the serialized payload (`str(k)` keys, ISO timestamps,
both counters). -/
def save_data (st : St) : Snapshot :=
  ⟨st.users_db.map (fun kv => (natToText kv.1, serUser kv.2)),
    st.books_db.map (fun kv => (natToText kv.1, serBook kv.2)),
    some st.user_counter, some st.book_counter⟩

/-- The per-record conversion of the users loop of `load_data`:
`v.copy()` with `created_at` run through `_iso_to_dt`. -/
def loadUser (v : SerUser) : User :=
  ⟨v.id, v.username, v.email, v.password_hash, v.role, iso_to_dt v.created_at⟩

/-- The per-record conversion of the books loop of `load_data`:
`uploaded_at` through `_iso_to_dt` and `setdefault('views', 0)`. -/
def loadBook (v : SerBook) : Book :=
  ⟨v.id, v.title, v.author, v.category, v.description, v.filename,
    v.uploaded_by, iso_to_dt v.uploaded_at, v.downloads, v.views.getD 0⟩

/-- One rebuild loop of `load_data`: process entries left to right,
parsing each key with `int(k)`.  The boolean is false when a key failed to
parse, in which case the returned table holds only the entries processed
before the exception (the loop stops there and the outer handler catches
it). -/
def loadTable (f : α → β) : List (String × α) → List (Nat × β) →
    List (Nat × β) × Bool
  | [], acc => (acc, true)
  | (k, v) :: rest, acc =>
      match textToNat k with
      | none => (acc, false)
      | some n => loadTable f rest (acc ++ [(n, f v)])

/-- What `load_data` finds on disk: no file, a file that `json.load`
rejects, or a parsed document. -/
inductive FileState where
  | missing
  | corrupt
  | valid (d : Snapshot)

/-- Function `load_data`: return early if the file is missing; a JSON parse error
is caught before any assignment, leaving the state untouched.  On a
parsed document, rebuild `users_db` and then `books_db` (an exception in
either loop leaves that table partially rebuilt and everything later
untouched), then set the counters from the document with the
`max(keys, default=0) + 1` fallback. -/
def load_data (file : FileState) (st : St) : St :=
  match file with
  | .missing => st
  | .corrupt => st
  | .valid d =>
      let us := loadTable loadUser d.users_db []
      if !us.2 then { st with users_db := us.1 }
      else
        let bs := loadTable loadBook d.books_db []
        if !bs.2 then { st with users_db := us.1, books_db := bs.1 }
        else
          { users_db := us.1,
            books_db := bs.1,
            user_counter :=
              d.user_counter.getD
                (((us.1.map Prod.fst).foldr max 0) + 1),
            book_counter :=
              d.book_counter.getD
                (((bs.1.map Prod.fst).foldr max 0) + 1) }

/-! ### Operation traces (for the ID-assignment invariant) -/

/-- The mutating operations of one process lifetime that touch the tables
and counters. -/
inductive Op where
  | opCreateUser (username email password role : String) (now : Nat)
  | opCreateBook (title author category description filename : String)
      (uploaded_by now : Nat)
  | opDeleteUser (sess_uid user_id : Nat)
  | opDeleteBook (book_id : Nat)

/-- One operation: the next state plus the user ID and/or book ID it
assigned. -/
def step (st : St) : Op → St × Option Nat × Option Nat
  | .opCreateUser u e p r n =>
      let res := create_user st u e p r n
      (res.1, some res.2.id, none)
  | .opCreateBook t a c d f ub n =>
      let res := create_book st t a c d f ub n
      (res.1, none, some res.2.id)
  | .opDeleteUser s u => (delete_user st s u, none, none)
  | .opDeleteBook b => (delete_book st b, none, none)

/-- Run a list of operations. -/
def runOps (st : St) : List Op → St
  | [] => st
  | op :: rest => runOps (step st op).1 rest

/-- The sequence of user IDs assigned along a run, in order. -/
def traceUserIds (st : St) : List Op → List Nat
  | [] => []
  | op :: rest =>
      (step st op).2.1.toList ++ traceUserIds (step st op).1 rest

/-- The sequence of book IDs assigned along a run, in order. -/
def traceBookIds (st : St) : List Op → List Nat
  | [] => []
  | op :: rest =>
      (step st op).2.2.toList ++ traceBookIds (step st op).1 rest

/-- The counter/table consistency invariant: every table key is below its
counter, keys are distinct, and the counters are at least 1.  It holds at
`initialState` and after loading any snapshot written by `save_data`. -/
def CounterInv (st : St) : Prop :=
  (∀ kv ∈ st.users_db, kv.1 < st.user_counter) ∧
    (∀ kv ∈ st.books_db, kv.1 < st.book_counter) ∧
    (st.users_db.map Prod.fst).Nodup ∧
    (st.books_db.map Prod.fst).Nodup ∧
    1 ≤ st.user_counter ∧ 1 ≤ st.book_counter

instance : DecidablePred CounterInv := fun st => by
  unfold CounterInv; infer_instance

/-! ### Helper predicates and lemmas -/

/-- Whether a `DtVal` is a structured datetime (as every timestamp the
application itself writes is). -/
def DtVal.isDt : DtVal → Bool
  | .dt _ => true
  | .txt _ => false

/-- Every timestamp of the state is a structured datetime, as is the case
for all states the application builds. -/
def TimestampsOk (st : St) : Prop :=
  (∀ kv ∈ st.users_db, kv.2.created_at.isDt = true) ∧
    ∀ kv ∈ st.books_db, kv.2.uploaded_at.isDt = true

instance : DecidablePred TimestampsOk := fun st => by
  unfold TimestampsOk; infer_instance

theorem iso_to_dt_dt_to_iso (t : Nat) : iso_to_dt (dt_to_iso (.dt t)) = .dt t := by
  simp [iso_to_dt, dt_to_iso, textToNat_natToText]

theorem loadUser_serUser (u : User) (h : u.created_at.isDt = true) :
    loadUser (serUser u) = u := by
  rcases u with ⟨i, un, em, ph, r, ca⟩
  cases ca with
  | dt t => simp [loadUser, serUser, iso_to_dt_dt_to_iso]
  | txt s => simp [DtVal.isDt] at h

theorem loadBook_serBook (b : Book) (h : b.uploaded_at.isDt = true) :
    loadBook (serBook b) = b := by
  rcases b with ⟨i, t, a, c, d, f, ub, ua, dl, vw⟩
  cases ua with
  | dt t => simp [loadBook, serBook, iso_to_dt_dt_to_iso]
  | txt s => simp [DtVal.isDt] at h

theorem loadTable_map_natToText (f : α → β) (g : γ → α) :
    ∀ (l : List (Nat × γ)) (acc : List (Nat × β)),
      loadTable f (l.map fun kv => (natToText kv.1, g kv.2)) acc =
        (acc ++ l.map fun kv => (kv.1, f (g kv.2)), true) := by
  intro l
  induction l with
  | nil => intro acc; simp [loadTable]
  | cons kv rest ih =>
      intro acc
      simp only [List.map_cons, loadTable, textToNat_natToText]
      rw [ih]
      simp

/-! ### C6: persistence round-trip -/

/-- C6: for every in-memory store state (whose timestamps are structured
datetimes, as for every state the application builds), serializing with
`save_data` and reloading with `load_data` reproduces exactly the same
user records, book records (all fields, counters and timestamps included)
and the same `user_counter` and `book_counter`, regardless of the
in-memory state the load starts from. -/
theorem save_load_roundtrip (st st₀ : St) (h : TimestampsOk st) :
    load_data (.valid (save_data st)) st₀ = st := by
  rcases st with ⟨us, bs, uc, bc⟩
  obtain ⟨hu, hb⟩ := h
  simp only [load_data, save_data, loadTable_map_natToText]
  have hus : (us.map fun kv => (kv.1, loadUser (serUser kv.2))) = us := by
    rw [List.map_congr_left fun kv hkv => ?_, List.map_id]
    simp [loadUser_serUser kv.2 (hu kv hkv)]
  have hbs : (bs.map fun kv => (kv.1, loadBook (serBook kv.2))) = bs := by
    rw [List.map_congr_left fun kv hkv => ?_, List.map_id]
    simp [loadBook_serBook kv.2 (hb kv hkv)]
  simp [hus, hbs]

def c6User : User :=
  ⟨1, "admin", "a@ex.com", generate_password_hash "admin123", "admin", .dt 5⟩

def c6Book : Book :=
  ⟨1, "T", "A", "Fiction", "D", "f.pdf", 1, .dt 7, 2, 3⟩

def c6St : St := ⟨[(1, c6User)], [(1, c6Book)], 2, 2⟩

/-- C6 witness: the round trip at a concrete populated store. -/
theorem save_load_roundtrip_witness :
    load_data (.valid (save_data c6St)) initialState = c6St :=
  save_load_roundtrip c6St initialState (by decide)

/-! ### C7: load is never fatal and leaves defaults on a missing or
corrupt file -/

/-- C7: `load_data` is a total function of the file state (no failure is
fatal), and when the snapshot file is missing, or present but failing to
parse, it returns the prior in-memory state unchanged — both tables and
both counters. -/
theorem load_data_missing_or_corrupt (st : St) :
    load_data .missing st = st ∧ load_data .corrupt st = st :=
  ⟨rfl, rfl⟩

/-! ### C8: the distinct sorted category list -/

def c8Book : Book := ⟨1, "T", "A", "", "D", "f.pdf", 1, .dt 0, 0, 0⟩

def c8St : St := ⟨[], [(1, c8Book)], 1, 2⟩

/-- C8 counterexample: in the `src/MediaFlow/app.py` variant of
`get_all_categories` (which has no emptiness guard), a store holding one
book whose category is the empty string yields `[""]` — the empty string
is not a non-empty category value, so the function does not return
exactly the distinct non-empty category values. -/
theorem get_all_categories_mf_empty :
    get_all_categories_mf c8St = [""] ∧ ¬("" : String) ≠ "" := by
  constructor
  · rw [get_all_categories_mf]
    have : ((c8St.books_db.map Prod.snd).map Book.category).toFinset =
        ({""} : Finset String) := by
      rw [show (c8St.books_db.map Prod.snd).map Book.category = [""] from rfl]
      rfl
    rw [this, Finset.sort_singleton]
  · intro h; exact h rfl

/-- C8 amended: the KitabGhar variant of `get_all_categories` returns
exactly the distinct non-empty category values of the stored books,
strictly sorted (hence duplicate-free) in lexicographic order; the older
`src/MediaFlow/app.py` variant returns the distinct category values
strictly sorted but does not exclude the empty string. -/
theorem get_all_categories_spec (st : St) :
    ((get_all_categories st).Sorted (· < ·) ∧
      (get_all_categories st).Nodup ∧
      (∀ c, c ∈ get_all_categories st ↔
        c ≠ "" ∧ ∃ b ∈ st.books_db.map Prod.snd, b.category = c)) ∧
    ((get_all_categories_mf st).Sorted (· < ·) ∧
      (get_all_categories_mf st).Nodup ∧
      (∀ c, c ∈ get_all_categories_mf st ↔
        ∃ b ∈ st.books_db.map Prod.snd, b.category = c)) := by
  refine ⟨⟨Finset.sort_sorted_lt _, Finset.sort_nodup _ _, fun c => ?_⟩,
    Finset.sort_sorted_lt _, Finset.sort_nodup _ _, fun c => ?_⟩
  · rw [get_all_categories, Finset.mem_sort, List.mem_toFinset,
      List.mem_filter]
    constructor
    · rintro ⟨hmem, hne⟩
      rcases List.mem_map.mp hmem with ⟨b, hb, hc⟩
      exact ⟨by simpa using hne, b, hb, hc⟩
    · rintro ⟨hne, b, hb, hc⟩
      exact ⟨List.mem_map.mpr ⟨b, hb, hc⟩, by simpa using hne⟩
  · rw [get_all_categories_mf, Finset.mem_sort, List.mem_toFinset]
    constructor
    · intro hmem
      rcases List.mem_map.mp hmem with ⟨b, hb, hc⟩
      exact ⟨b, hb, hc⟩
    · rintro ⟨b, hb, hc⟩
      exact List.mem_map.mpr ⟨b, hb, hc⟩

/-! ### C1: role-hierarchy access control -/

/-- The role ranking as the claim states it: reader = 1, author = 2,
admin = 3. -/
def specRoleRank (r : String) : Nat :=
  if r = "reader" then 1
  else if r = "author" then 2
  else if r = "admin" then 3
  else 0

/-- C1: for an authenticated session whose user exists and carries one of
the three hierarchy roles, a route guarded by `require_role r` (with `r`
one of the three roles) falls through to its handler exactly when the
user's rank is at least the rank of `r`, and otherwise the request is
denied (redirect to home with an error).  In particular a reader is
denied every author- or admin-gated route, an author is denied admin-gated
routes, and an admin is admitted to every gated route. -/
theorem require_role_hierarchy (st : St) (uid : Nat) (user : User)
    (r : String) (huser : get_user_by_id st uid = some user)
    (hrole : user.role ∈ rolesKeys) (hr : r ∈ rolesKeys) :
    (require_role st (some uid) r = .allowed ↔
      specRoleRank r ≤ specRoleRank user.role) ∧
    (require_role st (some uid) r = .denied ↔
      specRoleRank user.role < specRoleRank r) ∧
    (user.role = "reader" → (r = "author" ∨ r = "admin") →
      require_role st (some uid) r = .denied) ∧
    (user.role = "author" → r = "admin" →
      require_role st (some uid) r = .denied) ∧
    (user.role = "admin" → require_role st (some uid) r = .allowed) := by
  have hstep : require_role st (some uid) r =
      if role_hierarchy_get user.role 0 < role_hierarchy_get r 999 then
        .denied
      else .allowed := by
    simp [require_role, huser]
  simp only [rolesKeys, List.mem_cons, List.mem_singleton,
    List.not_mem_nil, or_false] at hrole hr
  rcases hrole with h1 | h1 | h1 <;> rcases hr with h2 | h2 | h2 <;>
    rw [hstep, h1, h2] <;> decide

def c1Admin : User :=
  ⟨1, "admin", "a@ex.com", generate_password_hash "admin123", "admin", .dt 0⟩

def c1Reader : User :=
  ⟨2, "reader1", "r@ex.com", generate_password_hash "reader123", "reader",
    .dt 0⟩

def c1St : St := ⟨[(1, c1Admin), (2, c1Reader)], [], 3, 1⟩

/-- C1 witness: in a concrete store, the admin session passes an
admin-gated guard and the reader session is denied an author-gated one. -/
theorem require_role_hierarchy_witness :
    require_role c1St (some 1) "admin" = .allowed ∧
      require_role c1St (some 2) "author" = .denied :=
  ⟨(require_role_hierarchy c1St 1 c1Admin "admin" (by decide) (by decide)
      (by decide)).2.2.2.2 rfl,
    (require_role_hierarchy c1St 2 c1Reader "author" (by decide) (by decide)
      (by decide)).2.2.1 rfl (Or.inl rfl)⟩

/-! ### C3: duplicate registration fails and changes nothing -/

/-- C3: a POST to `/register` with a username already present in the user
store returns the state completely unchanged — no record added or
modified, counters not advanced — and never reports success. -/
theorem register_duplicate_unchanged (st : St)
    (username email password confirm role : String) (now : Nat)
    (hex : (get_user_by_username st username).isSome = true) :
    (register st username email password confirm role now).1 = st ∧
      ∀ uid, (register st username email password confirm role now).2 ≠
        .success uid := by
  unfold register
  split_ifs with h1 h2 <;>
    exact ⟨rfl, fun uid h => RegResult.noConfusion h⟩

def c3St : St := ⟨[(1, c1Admin)], [], 2, 1⟩

/-- C3 witness: re-registering the username `admin` in a concrete store
leaves the store unchanged and does not succeed. -/
theorem register_duplicate_unchanged_witness :
    (register c3St "admin" "x@ex.com" "pw" "pw" "reader" 9).1 = c3St ∧
      (register c3St "admin" "x@ex.com" "pw" "pw" "reader" 9).2 ≠
        .success 2 :=
  ⟨(register_duplicate_unchanged c3St "admin" "x@ex.com" "pw" "pw" "reader"
      9 (by decide)).1,
    (register_duplicate_unchanged c3St "admin" "x@ex.com" "pw" "pw" "reader"
      9 (by decide)).2 2⟩

/-! ### C10: unknown roles are coerced to reader at registration -/

theorem lookup_append_fresh {β : Type _} (l : List (Nat × β)) (k : Nat)
    (v : β) (h : l.lookup k = none) : (l ++ [(k, v)]).lookup k = some v := by
  induction l with
  | nil => simp [List.lookup]
  | cons kv rest ih =>
      obtain ⟨a, b⟩ := kv
      rw [List.cons_append]
      rw [List.lookup] at h
      rw [List.lookup]
      cases hka : k == a with
      | true =>
          rw [hka] at h
          exact Option.noConfusion h
      | false =>
          rw [hka] at h
          exact ih h

/-- C10: a registration whose role field lies outside
{reader, author, admin} is not rejected: provided the other validations
pass, the account is created with the role silently coerced to
`'reader'`, so the stored record's role belongs to the three-role
hierarchy. -/
theorem register_coerces_unknown_role (st : St)
    (username email password confirm role : String) (now : Nat)
    (hu : username ≠ "") (hp : password ≠ "") (hcf : password = confirm)
    (hfree : get_user_by_username st username = none)
    (hfresh : st.users_db.lookup st.user_counter = none)
    (hrole : role ∉ rolesKeys) :
    (register st username email password confirm role now).2 =
      .success st.user_counter ∧
    ∃ u, get_user_by_id
        (register st username email password confirm role now).1
        st.user_counter = some u ∧
      u.role = "reader" ∧ u.role ∈ rolesKeys := by
  subst hcf
  have hreg : register st username email password password role now =
      ({ st with
          users_db := st.users_db ++
            [(st.user_counter,
              ⟨st.user_counter, username, email,
                generate_password_hash password, "reader", .dt now⟩)],
          user_counter := st.user_counter + 1 },
        .success st.user_counter) := by
    simp [register, create_user, hu, hp, hfree, hrole]
  rw [hreg]
  refine ⟨rfl, ⟨st.user_counter, username, email,
    generate_password_hash password, "reader", .dt now⟩, ?_, rfl, ?_⟩
  · exact lookup_append_fresh st.users_db st.user_counter _ hfresh
  · show ("reader" : String) ∈ rolesKeys
    decide

def c10St : St := ⟨[(1, c1Admin)], [], 2, 1⟩

/-- C10 witness: registering with the junk role `superuser` in a concrete
store succeeds and stores a `reader` record. -/
theorem register_coerces_unknown_role_witness :
    (register c10St "eve" "e@ex.com" "pw" "pw" "superuser" 9).2 =
      .success 2 ∧
    ∃ u, get_user_by_id
        (register c10St "eve" "e@ex.com" "pw" "pw" "superuser" 9).1 2 =
      some u ∧ u.role = "reader" ∧ u.role ∈ rolesKeys :=
  register_coerces_unknown_role c10St "eve" "e@ex.com" "pw" "pw"
    "superuser" 9 (by decide) (by decide) rfl (by decide) (by decide)
    (by decide)

/-! ### C2: authentication succeeds exactly on the original password -/

theorem find_username_of_mem (l : List User) (u : User) (hmem : u ∈ l)
    (hnd : (l.map User.username).Nodup) :
    l.find? (fun x => x.username == u.username) = some u := by
  induction l with
  | nil => cases hmem
  | cons a rest ih =>
      rcases List.mem_cons.mp hmem with h | h
      · subst h
        rw [List.find?_cons_of_pos _ (by simp)]
      · have hne : a.username ≠ u.username := by
          intro heq
          have : u.username ∈ rest.map User.username :=
            List.mem_map.mpr ⟨u, h, rfl⟩
          rw [← heq] at this
          exact (List.nodup_cons.mp hnd).1 this
        rw [List.find?_cons_of_neg _ (by simpa using hne)]
        exact ih h (List.nodup_cons.mp hnd).2

/-- C2: for a user record in the store whose hash was generated from the
plaintext `p` (as `create_user` does), and with usernames unique in the
store, `authenticate_user` on that username returns exactly that record
iff the supplied password equals `p`; a wrong password and a missing
username both return `none` — the identical result. -/
theorem authenticate_user_spec (st : St) (uid : Nat) (u : User) (p : String)
    (hnd : ((st.users_db.map Prod.snd).map User.username).Nodup)
    (hmem : (uid, u) ∈ st.users_db)
    (hph : u.password_hash = generate_password_hash p) :
    (∀ q, authenticate_user st u.username q = some u ↔ q = p) ∧
    (∀ q, q ≠ p → authenticate_user st u.username q = none) ∧
    (∀ name q, get_user_by_username st name = none →
      authenticate_user st name q = none) := by
  have hfind : get_user_by_username st u.username = some u :=
    find_username_of_mem _ u (List.mem_map.mpr ⟨(uid, u), hmem, rfl⟩) hnd
  have hcheck : ∀ q, check_password_hash u.password_hash q = (p == q) := by
    intro q
    rw [hph]
    rfl
  refine ⟨fun q => ?_, fun q hq => ?_, fun name q hnone => ?_⟩
  · rw [authenticate_user, hfind]
    show (if check_password_hash u.password_hash q = true then some u
      else none) = some u ↔ q = p
    rw [hcheck q]
    by_cases hpq : p = q
    · subst hpq
      simp
    · rw [if_neg (by simp [hpq])]
      constructor
      · intro h
        exact Option.noConfusion h
      · intro h
        exact absurd h.symm hpq
  · rw [authenticate_user, hfind]
    show (if check_password_hash u.password_hash q = true then some u
      else none) = none
    rw [hcheck q,
      if_neg (by simp only [beq_iff_eq]; exact fun h => hq (Eq.symm h))]
  · rw [authenticate_user, hnone]

def c2User : User :=
  ⟨1, "alice", "al@ex.com", generate_password_hash "s3cret", "reader",
    .dt 3⟩

def c2St : St := ⟨[(1, c2User)], [], 2, 1⟩

/-- C2 witness: in a concrete store, `alice` authenticates with her
original password, fails with a wrong one, and an unknown username also
yields `none`. -/
theorem authenticate_user_spec_witness :
    authenticate_user c2St "alice" "s3cret" = some c2User ∧
      authenticate_user c2St "alice" "wrong" = none ∧
      authenticate_user c2St "bob" "s3cret" = none :=
  ⟨((authenticate_user_spec c2St 1 c2User "s3cret" (by decide) (by decide)
      rfl).1 "s3cret").mpr rfl,
    (authenticate_user_spec c2St 1 c2User "s3cret" (by decide) (by decide)
      rfl).2.1 "wrong" (by decide),
    (authenticate_user_spec c2St 1 c2User "s3cret" (by decide) (by decide)
      rfl).2.2 "bob" "s3cret" (by decide)⟩

/-! ### C4: search semantics -/

/-- The claim's match predicate: title, author or description contains
the query case-insensitively. -/
def specMatches (b : Book) (q : String) : Prop :=
  (lower q).data <:+: (lower b.title).data ∨
    (lower q).data <:+: (lower b.author).data ∨
    (lower q).data <:+: (lower b.description).data

theorem searchCond_none_none (b : Book) : searchCond b none none = true :=
  rfl

theorem searchCond_some_none (b : Book) (q : String) (hq : q ≠ "") :
    searchCond b (some q) none = true ↔ specMatches b q := by
  simp only [searchCond, pyTruthy, hq, queryHit, strIn, specMatches]
  simp [hq, or_assoc]

theorem searchCond_some_some (b : Book) (q c : String) (hq : q ≠ "")
    (hc : c ≠ "") :
    searchCond b (some q) (some c) = true ↔
      specMatches b q ∧ b.category = c := by
  simp only [searchCond, pyTruthy, hq, queryHit, strIn, specMatches]
  simp [hq, hc, or_assoc]

theorem searchCond_none_some (b : Book) (c : String) (hc : c ≠ "") :
    searchCond b none (some c) = true ↔ b.category = c := by
  simp [searchCond, pyTruthy, hc]

/-- C4: with neither query nor category `search_books` returns the full
catalog (the book table in iteration order, no omission, no duplication);
with a query it returns exactly the books one of whose title, author or
description case-insensitively contains it; a given category further
restricts to exact category equality; and the result never contains
duplicates when the catalog does not. -/
theorem search_books_spec (st : St) (q c : String) (hq : q ≠ "")
    (hc : c ≠ "") :
    search_books st none none = st.books_db.map Prod.snd ∧
    (∀ b, b ∈ search_books st (some q) none ↔
      b ∈ st.books_db.map Prod.snd ∧ specMatches b q) ∧
    (∀ b, b ∈ search_books st (some q) (some c) ↔
      b ∈ st.books_db.map Prod.snd ∧ specMatches b q ∧ b.category = c) ∧
    (∀ b, b ∈ search_books st none (some c) ↔
      b ∈ st.books_db.map Prod.snd ∧ b.category = c) ∧
    (∀ query category, (st.books_db.map Prod.snd).Nodup →
      (search_books st query category).Nodup) := by
  refine ⟨?_, fun b => ?_, fun b => ?_, fun b => ?_,
    fun query category h => ?_⟩
  · exact List.filter_eq_self.mpr fun b _ => searchCond_none_none b
  · rw [search_books, List.mem_filter, searchCond_some_none b q hq]
  · rw [search_books, List.mem_filter, searchCond_some_some b q c hq hc]
  · rw [search_books, List.mem_filter, searchCond_none_some b c hc]
  · exact h.filter _

def c4b1 : Book :=
  ⟨1, "Harry Potter", "Rowling", "Fiction", "wizards", "a.pdf", 1, .dt 1,
    0, 0⟩

def c4b2 : Book :=
  ⟨2, "Calculus", "Spivak", "Math", "analysis", "b.pdf", 1, .dt 2, 0, 0⟩

def c4St : St := ⟨[], [(1, c4b1), (2, c4b2)], 1, 3⟩

/-- C4 witness: the query `har` (case-insensitively) finds the Harry
Potter record in a concrete two-book catalog, and the no-filter search
returns the full catalog. -/
theorem search_books_spec_witness :
    search_books c4St none none = [c4b1, c4b2] ∧
      c4b1 ∈ search_books c4St (some "har") none :=
  ⟨(search_books_spec c4St "har" "Math" (by decide) (by decide)).1,
    ((search_books_spec c4St "har" "Math" (by decide) (by decide)).2.1
      c4b1).mpr ⟨by decide, Or.inl (by decide)⟩⟩

/-! ### C5: download and read touch exactly one counter -/

theorem lookup_update_self (g : Book → Book) :
    ∀ (l : List (Nat × Book)) (bid : Nat) (book : Book),
      l.lookup bid = some book →
      (l.map fun kv =>
        if kv.1 == bid then (kv.1, g kv.2) else kv).lookup bid =
        some (g book) := by
  intro l
  induction l with
  | nil => intro bid book h; exact Option.noConfusion h
  | cons kv rest ih =>
      intro bid book h
      obtain ⟨a, b⟩ := kv
      rw [List.map_cons]
      by_cases hba : bid = a
      · subst hba
        rw [List.lookup, beq_self_eq_true] at h
        have hb : b = book := by
          simpa using h
        subst hb
        rw [if_pos (by simp), List.lookup, beq_self_eq_true]
      · have h1 : (bid == a) = false := beq_eq_false_iff_ne.mpr hba
        have h2 : (a == bid) = false :=
          beq_eq_false_iff_ne.mpr (Ne.symm hba)
        rw [List.lookup, h1] at h
        rw [if_neg (by simp [h2]), List.lookup, h1]
        exact ih bid book h

theorem lookup_update_other (g : Book → Book) :
    ∀ (l : List (Nat × Book)) (k bid : Nat), k ≠ bid →
      (l.map fun kv =>
        if kv.1 == bid then (kv.1, g kv.2) else kv).lookup k =
        l.lookup k := by
  intro l
  induction l with
  | nil => intro k bid hk; rfl
  | cons kv rest ih =>
      intro k bid hk
      obtain ⟨a, b⟩ := kv
      rw [List.map_cons]
      by_cases hab : a = bid
      · subst hab
        have h1 : (k == a) = false := beq_eq_false_iff_ne.mpr hk
        rw [if_pos (by simp), List.lookup, h1, List.lookup, h1]
        exact ih k a hk
      · have h2 : (a == bid) = false := beq_eq_false_iff_ne.mpr hab
        rw [if_neg (by simp [h2]), List.lookup, List.lookup]
        cases hka : k == a with
        | true => rfl
        | false => exact ih k bid hk

theorem map_fst_update (g : Book → Book) (l : List (Nat × Book))
    (bid : Nat) :
    ((l.map fun kv =>
      if kv.1 == bid then (kv.1, g kv.2) else kv).map Prod.fst) =
      l.map Prod.fst := by
  rw [List.map_map]
  refine List.map_congr_left fun kv _ => ?_
  by_cases h : kv.1 == bid <;> simp [h, Function.comp]

/-- C5: when book `bid` exists and its backing file is present, download
serves the file and bumps exactly that book's `downloads` by one, leaving
its every other field (including `views`), every other book, the user
table and both counters unchanged; read does the same bumping only
`views`. -/
theorem download_read_counters (st : St) (fs : String → Bool) (bid : Nat)
    (book : Book) (hb : st.books_db.lookup bid = some book)
    (hf : fs book.filename = true) :
    ((download st fs bid).2 = .served ∧
      (download st fs bid).1.books_db.lookup bid =
        some { book with downloads := book.downloads + 1 } ∧
      (∀ k, k ≠ bid → (download st fs bid).1.books_db.lookup k =
        st.books_db.lookup k) ∧
      (download st fs bid).1.books_db.map Prod.fst =
        st.books_db.map Prod.fst ∧
      (download st fs bid).1.users_db = st.users_db ∧
      (download st fs bid).1.user_counter = st.user_counter ∧
      (download st fs bid).1.book_counter = st.book_counter) ∧
    ((read st fs bid).2 = .served ∧
      (read st fs bid).1.books_db.lookup bid =
        some { book with views := book.views + 1 } ∧
      (∀ k, k ≠ bid → (read st fs bid).1.books_db.lookup k =
        st.books_db.lookup k) ∧
      (read st fs bid).1.books_db.map Prod.fst =
        st.books_db.map Prod.fst ∧
      (read st fs bid).1.users_db = st.users_db ∧
      (read st fs bid).1.user_counter = st.user_counter ∧
      (read st fs bid).1.book_counter = st.book_counter) := by
  have hdl : download st fs bid =
      ({ st with
          books_db := st.books_db.map fun kv =>
            if kv.1 == bid then
              (kv.1, { kv.2 with downloads := kv.2.downloads + 1 })
            else kv },
        .served) := by
    simp [download, hb, hf]
  have hrd : read st fs bid =
      ({ st with
          books_db := st.books_db.map fun kv =>
            if kv.1 == bid then
              (kv.1, { kv.2 with views := kv.2.views + 1 })
            else kv },
        .served) := by
    simp [read, hb, hf]
  rw [hdl, hrd]
  exact ⟨⟨rfl,
      lookup_update_self (fun x => { x with downloads := x.downloads + 1 })
        st.books_db bid book hb,
      fun k hk =>
        lookup_update_other
          (fun x => { x with downloads := x.downloads + 1 })
          st.books_db k bid hk,
      map_fst_update (fun x => { x with downloads := x.downloads + 1 })
        st.books_db bid, rfl, rfl, rfl⟩,
    rfl,
      lookup_update_self (fun x => { x with views := x.views + 1 })
        st.books_db bid book hb,
      fun k hk =>
        lookup_update_other (fun x => { x with views := x.views + 1 })
          st.books_db k bid hk,
      map_fst_update (fun x => { x with views := x.views + 1 })
        st.books_db bid, rfl, rfl, rfl⟩

def c5Book : Book := ⟨1, "T", "A", "Cat", "D", "x.pdf", 1, .dt 1, 4, 9⟩

def c5Other : Book := ⟨2, "U", "B", "Cat", "E", "y.pdf", 1, .dt 2, 7, 8⟩

def c5St : St := ⟨[], [(1, c5Book), (2, c5Other)], 1, 3⟩

/-- C5 witness: downloading book 1 in a concrete two-book store serves
it, sets its `downloads` to 5 with `views` still 9, and leaves book 2's
record untouched. -/
theorem download_read_counters_witness :
    (download c5St (fun _ => true) 1).2 = .served ∧
      (download c5St (fun _ => true) 1).1.books_db.lookup 1 =
        some ⟨1, "T", "A", "Cat", "D", "x.pdf", 1, .dt 1, 5, 9⟩ ∧
      (download c5St (fun _ => true) 1).1.books_db.lookup 2 =
        some c5Other :=
  ⟨(download_read_counters c5St (fun _ => true) 1 c5Book (by decide)
      rfl).1.1,
    (download_read_counters c5St (fun _ => true) 1 c5Book (by decide)
      rfl).1.2.1,
    by
      rw [(download_read_counters c5St (fun _ => true) 1 c5Book (by decide)
        rfl).1.2.2.1 2 (by decide)]
      decide⟩

/-! ### C9: ID assignment is positive, fresh and monotone -/

theorem step_user_counter_le (st : St) (op : Op) :
    st.user_counter ≤ (step st op).1.user_counter := by
  cases op with
  | opCreateUser u e p r n => simp [step, create_user]
  | opCreateBook t a c d f ub n => simp [step, create_book]
  | opDeleteUser s u =>
      apply le_of_eq
      simp only [step, delete_user]
      split_ifs <;> rfl
  | opDeleteBook b =>
      apply le_of_eq
      simp only [step, delete_book]
      split_ifs <;> rfl

theorem step_book_counter_le (st : St) (op : Op) :
    st.book_counter ≤ (step st op).1.book_counter := by
  cases op with
  | opCreateUser u e p r n => simp [step, create_user]
  | opCreateBook t a c d f ub n => simp [step, create_book]
  | opDeleteUser s u =>
      apply le_of_eq
      simp only [step, delete_user]
      split_ifs <;> rfl
  | opDeleteBook b =>
      apply le_of_eq
      simp only [step, delete_book]
      split_ifs <;> rfl

theorem traceUserIds_lb :
    ∀ (ops : List Op) (st : St), ∀ i ∈ traceUserIds st ops,
      st.user_counter ≤ i := by
  intro ops
  induction ops with
  | nil => intro st i hi; simp [traceUserIds] at hi
  | cons op rest ih =>
      intro st i hi
      rw [traceUserIds] at hi
      rcases List.mem_append.mp hi with h | h
      · cases op with
        | opCreateUser u e p r n =>
            have : i = st.user_counter := by
              simpa [step, create_user] using h

            exact le_of_eq this.symm
        | opCreateBook t a c d f ub n => simp [step] at h
        | opDeleteUser s u => simp [step] at h
        | opDeleteBook b => simp [step] at h
      · exact le_trans (step_user_counter_le st op) (ih (step st op).1 i h)

theorem traceBookIds_lb :
    ∀ (ops : List Op) (st : St), ∀ i ∈ traceBookIds st ops,
      st.book_counter ≤ i := by
  intro ops
  induction ops with
  | nil => intro st i hi; simp [traceBookIds] at hi
  | cons op rest ih =>
      intro st i hi
      rw [traceBookIds] at hi
      rcases List.mem_append.mp hi with h | h
      · cases op with
        | opCreateBook t a c d f ub n =>
            have : i = st.book_counter := by
              simpa [step, create_book] using h
            exact le_of_eq this.symm
        | opCreateUser u e p r n => simp [step] at h
        | opDeleteUser s u => simp [step] at h
        | opDeleteBook b => simp [step] at h
      · exact le_trans (step_book_counter_le st op) (ih (step st op).1 i h)

theorem traceUserIds_sorted :
    ∀ (ops : List Op) (st : St), (traceUserIds st ops).Sorted (· < ·) := by
  intro ops
  induction ops with
  | nil => intro st; simp [traceUserIds]
  | cons op rest ih =>
      intro st
      rw [traceUserIds]
      cases op with
      | opCreateUser u e p r n =>
          rw [show ((step st (.opCreateUser u e p r n)).2.1).toList =
            [st.user_counter] from rfl]
          rw [List.singleton_append, List.sorted_cons]
          refine ⟨fun b hb => ?_, ih _⟩
          have hle := traceUserIds_lb rest (step st (.opCreateUser u e p r n)).1 b hb
          have hcnt : (step st (.opCreateUser u e p r n)).1.user_counter =
              st.user_counter + 1 := rfl
          omega
      | opCreateBook t a c d f ub n => exact ih _
      | opDeleteUser s u => exact ih _
      | opDeleteBook b => exact ih _

theorem traceBookIds_sorted :
    ∀ (ops : List Op) (st : St), (traceBookIds st ops).Sorted (· < ·) := by
  intro ops
  induction ops with
  | nil => intro st; simp [traceBookIds]
  | cons op rest ih =>
      intro st
      rw [traceBookIds]
      cases op with
      | opCreateBook t a c d f ub n =>
          rw [show ((step st (.opCreateBook t a c d f ub n)).2.2).toList =
            [st.book_counter] from rfl]
          rw [List.singleton_append, List.sorted_cons]
          refine ⟨fun b hb => ?_, ih _⟩
          have hle := traceBookIds_lb rest
            (step st (.opCreateBook t a c d f ub n)).1 b hb
          have hcnt : (step st (.opCreateBook t a c d f ub n)).1.book_counter =
              st.book_counter + 1 := rfl
          omega
      | opCreateUser u e p r n => exact ih _
      | opDeleteUser s u => exact ih _
      | opDeleteBook b => exact ih _

theorem counterInv_step (st : St) (op : Op) (h : CounterInv st) :
    CounterInv (step st op).1 := by
  obtain ⟨hub, hbb, hun, hbn, hu1, hb1⟩ := h
  cases op with
  | opCreateUser u e p r n =>
      refine ⟨?_, ?_, ?_, hbn, Nat.le_succ_of_le hu1, hb1⟩
      · intro kv hkv
        rcases List.mem_append.mp hkv with hm | hm
        · exact lt_trans (hub kv hm) (Nat.lt_succ_self _)
        · rw [List.mem_singleton.mp hm]
          exact Nat.lt_succ_self _
      · exact hbb
      · rw [show (step st (.opCreateUser u e p r n)).1.users_db =
          st.users_db ++ [(st.user_counter, _)] from rfl]
        rw [List.map_append, List.nodup_append]
        refine ⟨hun, List.nodup_singleton _, fun a ha hb => ?_⟩
        rw [List.map_singleton, List.mem_singleton] at hb
        rcases List.mem_map.mp ha with ⟨kv, hkv, hfst⟩
        have := hub kv hkv
        omega
  | opCreateBook t a c d f ub n =>
      refine ⟨?_, ?_, hun, ?_, hu1, Nat.le_succ_of_le hb1⟩
      · exact hub
      · intro kv hkv
        rcases List.mem_append.mp hkv with hm | hm
        · exact lt_trans (hbb kv hm) (Nat.lt_succ_self _)
        · rw [List.mem_singleton.mp hm]
          exact Nat.lt_succ_self _
      · rw [show (step st (.opCreateBook t a c d f ub n)).1.books_db =
          st.books_db ++ [(st.book_counter, _)] from rfl]
        rw [List.map_append, List.nodup_append]
        refine ⟨hbn, List.nodup_singleton _, fun x hx hy => ?_⟩
        rw [List.map_singleton, List.mem_singleton] at hy
        rcases List.mem_map.mp hx with ⟨kv, hkv, hfst⟩
        have := hbb kv hkv
        omega
  | opDeleteUser s u =>
      simp only [step, delete_user]
      split_ifs with h1 h2
      · exact ⟨hub, hbb, hun, hbn, hu1, hb1⟩
      · refine ⟨?_, hbb, ?_, hbn, hu1, hb1⟩
        · intro kv hkv
          exact hub kv (List.mem_of_mem_filter hkv)
        · exact List.Nodup.sublist
            (List.Sublist.map Prod.fst (List.filter_sublist _)) hun
      · exact ⟨hub, hbb, hun, hbn, hu1, hb1⟩
  | opDeleteBook b =>
      simp only [step, delete_book]
      split_ifs with h1
      · refine ⟨hub, ?_, hun, ?_, hu1, hb1⟩
        · intro kv hkv
          exact hbb kv (List.mem_of_mem_filter hkv)
        · exact List.Nodup.sublist
            (List.Sublist.map Prod.fst (List.filter_sublist _)) hbn
      · exact ⟨hub, hbb, hun, hbn, hu1, hb1⟩

theorem counterInv_runOps :
    ∀ (ops : List Op) (st : St), CounterInv st →
      CounterInv (runOps st ops) := by
  intro ops
  induction ops with
  | nil => intro st h; exact h
  | cons op rest ih =>
      intro st h
      exact ih (step st op).1 (counterInv_step st op h)

/-- C9: starting from any state whose counters dominate the table keys
(in particular the initial state of a process), every user and book ID
assigned by `create_user` / `create_book` along any sequence of
create/delete operations is positive; the assignment sequence of each
table is strictly increasing — each new ID exceeds every ID assigned
before it, so IDs are pairwise distinct and an ID freed by a deletion is
never assigned again — and the resulting tables hold pairwise-distinct
IDs. -/
theorem id_assignment_invariant (st : St) (ops : List Op)
    (hinv : CounterInv st) :
    (traceUserIds st ops).Sorted (· < ·) ∧
    (∀ i ∈ traceUserIds st ops, 0 < i) ∧
    (traceUserIds st ops).Nodup ∧
    (traceBookIds st ops).Sorted (· < ·) ∧
    (∀ i ∈ traceBookIds st ops, 0 < i) ∧
    (traceBookIds st ops).Nodup ∧
    ((runOps st ops).users_db.map Prod.fst).Nodup ∧
    ((runOps st ops).books_db.map Prod.fst).Nodup := by
  have hu1 : 1 ≤ st.user_counter := hinv.2.2.2.2.1
  have hb1 : 1 ≤ st.book_counter := hinv.2.2.2.2.2
  refine ⟨traceUserIds_sorted ops st, fun i hi => ?_,
    (traceUserIds_sorted ops st).nodup,
    traceBookIds_sorted ops st, fun i hi => ?_,
    (traceBookIds_sorted ops st).nodup,
    (counterInv_runOps ops st hinv).2.2.1,
    (counterInv_runOps ops st hinv).2.2.2.1⟩
  · have := traceUserIds_lb ops st i hi
    omega
  · have := traceBookIds_lb ops st i hi
    omega

def c9Ops : List Op :=
  [.opCreateUser "a" "a@ex.com" "pw" "reader" 1,
    .opCreateBook "T" "A" "C" "D" "f.pdf" 1 2,
    .opDeleteUser 9 1,
    .opCreateUser "b" "b@ex.com" "pw" "author" 3]

/-- C9 witness: along a concrete trace from the initial state that
creates, deletes and creates again, the assigned user IDs are strictly
increasing. -/
theorem id_assignment_invariant_witness :
    (traceUserIds initialState c9Ops).Sorted (· < ·) :=
  (id_assignment_invariant initialState c9Ops (by decide)).1

end KitabGhar
